import Mathlib

/-!
Verification of the multi-source MCP tool aggregation layer
(`agents/mcp_manager.py` and `agents/runtime_base.py`).

The Python functions are shallowly embedded as executable Lean functions.
External effects (establishing a connection to an MCP server, listing its
tools, closing it) are modelled by outcome oracles attached to the inputs:
each server descriptor carries the outcome its connection attempt would
produce, and each registered connection carries the outcome its release
would produce.  The process environment is a function `String → Option
String`, and the filesystem seen by the config loader is a function
`String → FsEntry`.
-/

namespace AIOps

/-- Single-quote character (ASCII 39), used when rebuilding the exact
f-string log messages of the Python code. -/
def sq : String := String.singleton (Char.ofNat 39)

/-- Tools are opaque to this layer; we identify them by name. -/
abbrev Tool := String

/-! ### Environment resolver (`_resolve_env`, `_ENV_VAR_RE`)

`_ENV_VAR_RE = re.compile(r"\$\{([^}]+)\}")` and
`_ENV_VAR_RE.sub(lambda m: os.getenv(m.group(1), m.group(0)), value)`:
leftmost non-overlapping matches, each replaced by the environment value
of the captured name, or by the whole matched text when the name is unset.
-/

/-- Scanner for the `[^}]+\}` tail of the pattern: consumes characters
into the captured name until the first closing brace.  `acc` holds the
name characters read so far, reversed. -/
def splitVarGo (acc : List Char) : List Char → Option (List Char × List Char)
  | [] => none
  | c :: rest => if c = '}' then some (acc.reverse, rest) else splitVarGo (c :: acc) rest

/-- Given the characters following a `"${"` opener, returns
`some (name, rest)` when the regex `\$\{([^}]+)\}` matches at this
position (`name` nonempty, no brace), `none` otherwise. -/
def splitVar : List Char → Option (List Char × List Char)
  | [] => none
  | c :: rest => if c = '}' then none else splitVarGo [c] rest

/-- Bound used for termination of the substitution scanner. -/
def splitVarGo_len : ∀ (l acc : List Char) (p : List Char × List Char),
    splitVarGo acc l = some p → p.2.length < l.length := by
  intro l
  induction l with
  | nil => intro acc p h; simp [splitVarGo] at h
  | cons c rest ih =>
    intro acc p h
    simp only [splitVarGo] at h
    split at h
    · cases h
      simp
    · have := ih _ _ h
      simp only [List.length_cons]
      omega

/-- Bound used for termination of the substitution scanner. -/
def splitVar_len : ∀ (l : List Char) (p : List Char × List Char),
    splitVar l = some p → p.2.length < l.length := by
  intro l p h
  cases l with
  | nil => simp [splitVar] at h
  | cons c rest =>
    simp only [splitVar] at h
    split at h
    · cases h
    · have := splitVarGo_len _ _ _ h
      simp only [List.length_cons]
      omega

/-- The literal text of a `${name}` token, as characters. -/
def tokenText (name : List Char) : List Char := '$' :: '{' :: (name ++ ['}'])

/-- `os.getenv(m.group(1), m.group(0))`: the environment value of the
captured name when set, the literal matched token text otherwise. -/
def lookupEnv (osenv : String → Option String) (name : List Char) : List Char :=
  match osenv (String.mk name) with
  | some v => v.data
  | none => tokenText name

/-- The substitution `_ENV_VAR_RE.sub(lambda m: os.getenv(m.group(1),
m.group(0)), value)` on the character list of `value`: scan left to
right; at each `"${"` whose tail matches `[^}]+\}`, emit the replacement
and resume after the closing brace; otherwise emit the current character
and move one position forward. -/
def substChars (osenv : String → Option String) : List Char → List Char
  | [] => []
  | c :: rest =>
    if c = '$' then
      match rest with
      | [] => [c]
      | c2 :: rest2 =>
        if c2 = '{' then
          match hsv : splitVar rest2 with
          | some p => lookupEnv osenv p.1 ++ substChars osenv p.2
          | none => c :: substChars osenv (c2 :: rest2)
        else c :: substChars osenv (c2 :: rest2)
    else c :: substChars osenv rest
termination_by l => l.length
decreasing_by
  all_goals simp only [List.length_cons]
  all_goals try have hlen := splitVar_len _ _ hsv
  all_goals omega

/-- One segment of the regex engine's decomposition of the input: either a
character outside every match, or the captured name of one match. -/
inductive Seg where
  | lit (c : Char)
  | tok (name : List Char)
deriving DecidableEq, Repr

/-- The leftmost non-overlapping matches of `\$\{([^}]+)\}` in a character
list, interleaved with the unmatched characters (the regex engine's scan,
separated from the replacement step). -/
def scanTokens : List Char → List Seg
  | [] => []
  | c :: rest =>
    if c = '$' then
      match rest with
      | [] => [Seg.lit c]
      | c2 :: rest2 =>
        if c2 = '{' then
          match hsv : splitVar rest2 with
          | some p => Seg.tok p.1 :: scanTokens p.2
          | none => Seg.lit c :: scanTokens (c2 :: rest2)
        else Seg.lit c :: scanTokens (c2 :: rest2)
    else Seg.lit c :: scanTokens rest
termination_by l => l.length
decreasing_by
  all_goals simp only [List.length_cons]
  all_goals try have hlen := splitVar_len _ _ hsv
  all_goals omega

/-- The replacement policy applied to one segment: unmatched characters
are kept; a `${name}` token becomes the environment value of `name` when
set and stays the literal token text when unset. -/
def renderSeg (osenv : String → Option String) : Seg → List Char
  | Seg.lit c => [c]
  | Seg.tok name => lookupEnv osenv name

/-- A Python value appearing in a descriptor's `env`/`headers` mapping:
either a string, or a non-string carried by its `str()` representation. -/
inductive Val where
  | str (s : String)
  | other (asString : String)
deriving DecidableEq, Repr

/-- The per-value branch of `_resolve_env`: strings go through the regex
substitution, non-strings are coerced with `str(value)`. -/
def resolveVal (osenv : String → Option String) : Val → String
  | Val.str s => String.mk (substChars osenv s.data)
  | Val.other r => r

/-- `_resolve_env(env)`: rebuilds the mapping with every value resolved.
Python dicts preserve insertion order; the mapping is modelled as an
ordered association list. -/
def resolve_env (osenv : String → Option String) (env : List (String × Val)) :
    List (String × String) :=
  env.map (fun kv => (kv.1, resolveVal osenv kv.2))

/-! ### Configuration data model (`configs/mcp_servers.yaml` shape)

Boolean-valued YAML fields are modelled as `Option Bool` (the key may be
absent); `dict.get(key, default)` followed by a truthiness test becomes
`truthyOpt`. -/

/-- What happens when a descriptor's connection is actually attempted.
`constructFail` models an exception raised while building the client or
entering it into the scope (before registration); `listFail` models an
exception from `list_tools_sync()` after the client was registered;
`ok` models a successful connection exposing the given tools. -/
inductive ConnOutcome where
  | constructFail (msg : String)
  | listFail (msg : String)
  | ok (tools : List Tool)
deriving DecidableEq, Repr

/-- One entry of the `mcp_servers` list, together with the outcome oracle
for its connection attempt.  Only the keys read by `create_mcp_clients`
are modelled. -/
structure Server where
  enabled : Option Bool
  name : Option String
  transport : Option String
  outcome : ConnOutcome
deriving DecidableEq, Repr

/-- The `gateway` mapping of the config document. -/
structure GatewayCfg where
  enabled : Option Bool
deriving DecidableEq, Repr

/-- The top-level config document as a mapping: both top-level keys may
be absent (e.g. after loading a YAML null document). -/
structure MCPConfig where
  gateway : Option GatewayCfg
  mcp_servers : Option (List Server)
deriving DecidableEq, Repr

/-- Python truthiness of `d.get(key, False)` for a boolean-valued
optional key: absent or `False` is falsy, `True` is truthy. -/
def truthyOpt : Option Bool → Bool
  | none => false
  | some b => b

/-! ### `create_mcp_clients(config, exit_stack)` -/

/-- Observable state accumulated by the `create_mcp_clients` loop:
the collected `tools` list, the `print`ed log lines, the names of the
clients entered into the exit stack (`registered`, in registration
order), and the names of the descriptors whose connection was actually
attempted (`attempted`, entering the factory call of the `try` block). -/
structure MCPState where
  tools : List Tool
  log : List String
  registered : List String
  attempted : List String
deriving DecidableEq, Repr

/-- The empty accumulator at loop entry. -/
def emptyMCPState : MCPState := ⟨[], [], [], []⟩

/-- The log line `f"MCP '{name}' connection failed: {e}"`. -/
def connFailMsg (name msg : String) : String :=
  "MCP " ++ sq ++ name ++ sq ++ " connection failed: " ++ msg

/-- The log line `f"MCP '{name}': unsupported transport '{transport}'"`. -/
def unsupportedMsg (name tdisp : String) : String :=
  "MCP " ++ sq ++ name ++ sq ++ ": unsupported transport " ++ sq ++ tdisp ++ sq

/-- The log line `f"MCP '{name}': {len(server_tools)} tools loaded"`. -/
def loadedMsg (name : String) (n : Nat) : String :=
  "MCP " ++ sq ++ name ++ sq ++ ": " ++ toString n ++ " tools loaded"

/-- How an f-string renders an optional string: Python `None` prints as
`"None"`. -/
def pyShowOptStr : Option String → String
  | none => "None"
  | some s => s

/-- The body of the `try` block for a recognized transport: build the
client, `exit_stack.enter_context` it, `list_tools_sync()`, extend
`tools`; any exception is caught by the `except Exception` handler which
logs `connFailMsg` and moves on. -/
def tryConnect (st : MCPState) (name : String) (outcome : ConnOutcome) : MCPState :=
  match outcome with
  | ConnOutcome.constructFail m =>
    { st with
      attempted := st.attempted ++ [name]
      log := st.log ++ [connFailMsg name m] }
  | ConnOutcome.listFail m =>
    { st with
      attempted := st.attempted ++ [name]
      registered := st.registered ++ [name]
      log := st.log ++ [connFailMsg name m] }
  | ConnOutcome.ok ts =>
    { st with
      attempted := st.attempted ++ [name]
      registered := st.registered ++ [name]
      tools := st.tools ++ ts
      log := st.log ++ [loadedMsg name ts.length] }

/-- One iteration of the `for server in config.get("mcp_servers", [])`
loop: skip when `not server.get("enabled", False)`; dispatch on
`server.get("transport")`; unrecognized transports log a warning and
`continue`. -/
def processServer (st : MCPState) (server : Server) : MCPState :=
  if truthyOpt server.enabled = false then st
  else
    let name := server.name.getD "unknown"
    if server.transport = some "stdio" ∨ server.transport = some "streamable_http" then
      tryConnect st name server.outcome
    else
      { st with log := st.log ++ [unsupportedMsg name (pyShowOptStr server.transport)] }

/-- `create_mcp_clients(config, exit_stack)`: folds the per-descriptor
step over `config.get("mcp_servers", [])`, starting from the empty
accumulator, and returns the final observable state. -/
def create_mcp_clients (config : MCPConfig) : MCPState :=
  (config.mcp_servers.getD []).foldl processServer emptyMCPState

/-- The contribution of a single descriptor, processed from the empty
state. -/
def serverDelta (server : Server) : MCPState :=
  processServer emptyMCPState server

/-- Concatenation of two observable states, component-wise. -/
def stateAppend (a b : MCPState) : MCPState :=
  ⟨a.tools ++ b.tools, a.log ++ b.log, a.registered ++ b.registered,
    a.attempted ++ b.attempted⟩

/-- Specification-side reading of one descriptor's tool contribution:
its source's tools exactly when it is enabled, has a recognized
transport, and its connection and tool listing succeed; nothing
otherwise. -/
def serverToolsSpec (server : Server) : List Tool :=
  if truthyOpt server.enabled = true
      ∧ (server.transport = some "stdio" ∨ server.transport = some "streamable_http") then
    match server.outcome with
    | ConnOutcome.ok ts => ts
    | _ => []
  else []

/-! ### The per-invocation tool assembly (`invoke` in `runtime_base.py`) -/

/-- What happens when the gateway connection is attempted: `setupFail`
models an exception before the client is registered (SSM lookup,
`get_gateway`, or entering the client), `listFail` one from
`list_tools_sync()` after registration, `ok` a successful connection. -/
inductive GatewayOutcome where
  | setupFail (msg : String)
  | listFail (msg : String)
  | ok (tools : List Tool)
deriving DecidableEq, Repr

/-- The per-invocation environment of `invoke`: the loaded config, the
value of `request_headers.get("Authorization", "")` (the empty string
when the header is absent — an empty-valued header is indistinguishable
from an absent one at this boundary), and the gateway outcome oracle. -/
structure InvokeEnv where
  config : MCPConfig
  authHeader : String
  gateway : GatewayOutcome
deriving DecidableEq, Repr

/-- Observable outcome of the tool-assembly part of one invocation. -/
structure InvokeResult where
  tools : List Tool
  log : List String
  registered : List String
  gatewayAttempted : Bool
deriving DecidableEq, Repr

/-- Truthiness of `mcp_config.get("gateway", {}).get("enabled")`. -/
def gwEnabled (c : MCPConfig) : Bool :=
  truthyOpt (c.gateway.getD ⟨none⟩).enabled

/-- The log line `f"Gateway connection failed: {e}"`. -/
def gwFailMsg (m : String) : String := "Gateway connection failed: " ++ m

/-- The log line `f"Gateway: {len(gw_tools)} tools loaded"`. -/
def gwLoadedMsg (n : Nat) : String := "Gateway: " ++ toString n ++ " tools loaded"

/-- The tool-assembly portion of `invoke`: start from the local tools,
optionally connect the gateway (guarded by
`mcp_config.get("gateway", {}).get("enabled") and auth_header`, its
`try` swallowing failures), then append the tools collected by
`create_mcp_clients` over the same exit stack. -/
def invokeAssemble (localTools : List Tool) (env : InvokeEnv) : InvokeResult :=
  let base : InvokeResult := ⟨localTools, [], [], false⟩
  let afterGw : InvokeResult :=
    if gwEnabled env.config = true ∧ env.authHeader ≠ "" then
      match env.gateway with
      | GatewayOutcome.setupFail m =>
        ⟨base.tools, base.log ++ [gwFailMsg m], base.registered, true⟩
      | GatewayOutcome.listFail m =>
        ⟨base.tools, base.log ++ [gwFailMsg m], base.registered ++ ["gateway"], true⟩
      | GatewayOutcome.ok ts =>
        ⟨base.tools ++ ts, base.log ++ [gwLoadedMsg ts.length],
          base.registered ++ ["gateway"], true⟩
    else base
  let mcp := create_mcp_clients env.config
  ⟨afterGw.tools ++ mcp.tools, afterGw.log ++ mcp.log,
    afterGw.registered ++ mcp.registered, afterGw.gatewayAttempted⟩

/-- Specification-side reading of the gateway contribution: its tools
exactly when the gateway is enabled, an authorization credential is
present, and the connection succeeds; nothing otherwise. -/
def gatewayToolsSpec (env : InvokeEnv) : List Tool :=
  if gwEnabled env.config = true ∧ env.authHeader ≠ "" then
    match env.gateway with
    | GatewayOutcome.ok ts => ts
    | _ => []
  else []

/-! ### Scope teardown (`contextlib.ExitStack.__exit__`)

The `with ExitStack() as stack` scope of `invoke` releases every
registered context manager when the block exits.  CPython pops the
callbacks in reverse registration order and invokes every one of them;
an exception raised by a callback is recorded (chaining the previously
pending one) and becomes the pending exception; after all callbacks have
run, the pending exception, if any, is re-raised. -/

/-- A connection registered in the scope, with its release oracle:
`releaseError = some m` means closing it raises an exception with
message `m`. -/
structure Conn where
  id : String
  releaseError : Option String
deriving DecidableEq, Repr

/-- Runs the exit callbacks in the given order (head first), returning
the ids of the close calls in invocation order and the exception left
pending after the sweep (later raisers replace earlier ones). -/
def runExitCallbacks : List Conn → List String × Option String
  | [] => ([], none)
  | c :: rest =>
    let r := runExitCallbacks rest
    (c.id :: r.1,
      match r.2 with
      | some e => some e
      | none => c.releaseError)

/-- `ExitStack.__exit__`: callbacks are popped in reverse registration
order (`regs` in registration order). -/
def scopeExit (regs : List Conn) : List String × Option String :=
  runExitCallbacks regs.reverse

/-! ### Config loading (`load_mcp_config`) -/

/-- What the filesystem holds at a path, as seen through
`os.path.exists` / `open` / `yaml.safe_load`: nothing; something that
exists but cannot be opened or read (e.g. a directory, for which `open`
raises `IsADirectoryError`); or a readable file whose YAML parse either
fails or yields a document (`none` = YAML null, turned into `{}` by the
`or {}` guard). -/
inductive FsEntry where
  | absent
  | unreadable (err : String)
  | yamlFile (doc : Except String (Option MCPConfig))

/-- The config returned for a missing file:
`{"gateway": {"enabled": False}, "mcp_servers": []}`. -/
def defaultMCPConfig : MCPConfig := ⟨some ⟨some false⟩, some []⟩

/-- The empty mapping `{}` produced by `yaml.safe_load(f) or {}` when
the document is null. -/
def emptyDictConfig : MCPConfig := ⟨none, none⟩

/-- `load_mcp_config(path)` over a modelled filesystem: a missing path
yields the default config; an unreadable path or a malformed document
raises (`Except.error`); otherwise the parsed document (or `{}` for a
null document) is returned. -/
def load_mcp_config (fs : String → FsEntry) (path : String) : Except String MCPConfig :=
  match fs path with
  | FsEntry.absent => Except.ok defaultMCPConfig
  | FsEntry.unreadable e => Except.error e
  | FsEntry.yamlFile (Except.error e) => Except.error e
  | FsEntry.yamlFile (Except.ok none) => Except.ok emptyDictConfig
  | FsEntry.yamlFile (Except.ok (some c)) => Except.ok c

/-- The config-loading step of `create_app`: `load_mcp_config` is called
with no surrounding handler, so any error it raises propagates out of
the setup code. -/
def create_app_config (fs : String → FsEntry) (path : String) : Except String MCPConfig :=
  load_mcp_config fs path

/-! ### Sample configuration values used for concrete evaluations -/

/-- A descriptor whose connection attempt raises. -/
def srvFail : Server :=
  ⟨some true, some "srv1", some "stdio", ConnOutcome.constructFail "boom"⟩

/-- A descriptor whose connection succeeds with two tools. -/
def srvOk : Server :=
  ⟨some true, some "srv2", some "streamable_http", ConnOutcome.ok ["t1", "t2"]⟩

/-- A descriptor with `enabled: false`. -/
def srvOff : Server :=
  ⟨some false, some "srv3", some "stdio", ConnOutcome.ok ["t3"]⟩

/-- A descriptor with no `enabled` key at all. -/
def srvNoEnabled : Server :=
  ⟨none, some "srv4", some "stdio", ConnOutcome.ok ["t4"]⟩

/-- A descriptor with an unrecognized transport. -/
def srvBadTransport : Server :=
  ⟨some true, some "srv5", some "websocket", ConnOutcome.ok ["t5"]⟩

/-- A sample process environment with only `MY_VAR` set. -/
def osenvSample : String → Option String :=
  fun n => if n = "MY_VAR" then some "secret" else none

/-! ### Helper lemmas -/

theorem strAppend_assoc (a b c : String) : a ++ b ++ c = a ++ (b ++ c) := by
  apply String.ext
  simp [String.data_append]

theorem stateAppend_empty_left (a : MCPState) : stateAppend emptyMCPState a = a := by
  cases a
  simp [stateAppend, emptyMCPState]

theorem stateAppend_empty_right (a : MCPState) : stateAppend a emptyMCPState = a := by
  cases a
  simp [stateAppend, emptyMCPState]

theorem stateAppend_assoc (a b c : MCPState) :
    stateAppend (stateAppend a b) c = stateAppend a (stateAppend b c) := by
  simp [stateAppend]

theorem processServer_eq_append (st : MCPState) (s : Server) :
    processServer st s = stateAppend st (serverDelta s) := by
  unfold serverDelta processServer
  by_cases h : truthyOpt s.enabled = false
  · simp [h, stateAppend_empty_right]
  · by_cases ht : s.transport = some "stdio" ∨ s.transport = some "streamable_http"
    · simp only [h, ht, if_true, if_false, if_neg, if_pos]
      cases s.outcome <;> simp [tryConnect, stateAppend, emptyMCPState]
    · simp [h, ht, stateAppend, emptyMCPState]

theorem foldl_processServer (servers : List Server) :
    ∀ st : MCPState, servers.foldl processServer st
      = stateAppend st (servers.foldl processServer emptyMCPState) := by
  induction servers with
  | nil =>
    intro st
    simp [stateAppend_empty_right]
  | cons s rest ih =>
    intro st
    simp only [List.foldl_cons]
    rw [ih (processServer st s), ih (processServer emptyMCPState s)]
    rw [processServer_eq_append st s, processServer_eq_append emptyMCPState s]
    rw [stateAppend_empty_left, stateAppend_assoc]

theorem create_append (gw : Option GatewayCfg) (l1 l2 : List Server) :
    create_mcp_clients ⟨gw, some (l1 ++ l2)⟩
      = stateAppend (create_mcp_clients ⟨gw, some l1⟩) (create_mcp_clients ⟨gw, some l2⟩) := by
  unfold create_mcp_clients
  simp only [Option.getD_some, List.foldl_append]
  rw [foldl_processServer l2 (l1.foldl processServer emptyMCPState)]

theorem create_cons (gw : Option GatewayCfg) (s : Server) (l : List Server) :
    create_mcp_clients ⟨gw, some (s :: l)⟩
      = stateAppend (serverDelta s) (create_mcp_clients ⟨gw, some l⟩) := by
  unfold create_mcp_clients
  simp only [Option.getD_some, List.foldl_cons]
  rw [foldl_processServer l (processServer emptyMCPState s)]
  rfl

theorem create_split (gw : Option GatewayCfg) (pre post : List Server) (s : Server) :
    create_mcp_clients ⟨gw, some (pre ++ s :: post)⟩
      = stateAppend (create_mcp_clients ⟨gw, some pre⟩)
          (stateAppend (serverDelta s) (create_mcp_clients ⟨gw, some post⟩)) := by
  rw [create_append gw pre (s :: post), create_cons gw s post]

theorem serverDelta_tools (s : Server) : (serverDelta s).tools = serverToolsSpec s := by
  unfold serverDelta processServer serverToolsSpec
  by_cases h : truthyOpt s.enabled = false
  · simp [h, emptyMCPState]
  · have h' : truthyOpt s.enabled = true := by
      cases hh : truthyOpt s.enabled
      · exact absurd hh h
      · rfl
    by_cases ht : s.transport = some "stdio" ∨ s.transport = some "streamable_http"
    · simp only [h, ht, h', if_neg, if_pos, and_true, if_true, true_and]
      cases s.outcome <;> simp [tryConnect, emptyMCPState]
    · simp [h, ht, h', emptyMCPState]

theorem create_tools (c : MCPConfig) :
    (create_mcp_clients c).tools = (c.mcp_servers.getD []).flatMap serverToolsSpec := by
  unfold create_mcp_clients
  generalize c.mcp_servers.getD [] = l
  induction l with
  | nil => simp [emptyMCPState]
  | cons s rest ih =>
    simp only [List.foldl_cons, List.flatMap_cons]
    rw [foldl_processServer rest (processServer emptyMCPState s)]
    show (processServer emptyMCPState s).tools ++ _ = _
    rw [ih]
    have hd := serverDelta_tools s
    unfold serverDelta at hd
    rw [hd]

theorem runExitCallbacks_fst (l : List Conn) : (runExitCallbacks l).1 = l.map Conn.id := by
  induction l with
  | nil => rfl
  | cons c rest ih => simp [runExitCallbacks, ih]

theorem runExitCallbacks_snd (l : List Conn) :
    (runExitCallbacks l).2 = (l.filterMap Conn.releaseError).getLast? := by
  induction l with
  | nil => rfl
  | cons c rest ih =>
    simp only [runExitCallbacks, List.filterMap_cons]
    rw [ih]
    cases hc : c.releaseError with
    | none =>
      cases hg : (rest.filterMap Conn.releaseError).getLast? <;> simp [hg]
    | some e =>
      cases hg : (rest.filterMap Conn.releaseError).getLast? with
      | none =>
        have : rest.filterMap Conn.releaseError = [] := by
          simpa using hg
        simp [this]
      | some e' =>
        cases hfm : rest.filterMap Conn.releaseError with
        | nil => rw [hfm] at hg; cases hg
        | cons x xs =>
          rw [hfm] at hg
          simp [List.getLast?_cons_cons, hg]

theorem scopeExit_fst (regs : List Conn) : (scopeExit regs).1 = regs.reverse.map Conn.id := by
  simp [scopeExit, runExitCallbacks_fst]

theorem scopeExit_snd (regs : List Conn) :
    (scopeExit regs).2 = (regs.filterMap Conn.releaseError).head? := by
  rw [scopeExit, runExitCallbacks_snd, List.filterMap_reverse, List.getLast?_reverse]

theorem substChars_render (osenv : String → Option String) (l : List Char) :
    substChars osenv l = (scanTokens l).flatMap (renderSeg osenv) := by
  induction l using substChars.induct osenv with
  | case1 => simp [substChars, scanTokens]
  | case2 => simp [substChars, scanTokens, renderSeg]
  | case3 rest p hsv ih =>
    rw [substChars.eq_def, scanTokens.eq_def]
    simp only []
    split
    · split
      · rename_i p2 h2
        rw [hsv] at h2
        injection h2 with h3
        subst h3
        simp [renderSeg, ih]
      · rename_i h2
        simp [hsv] at h2
    · rename_i h1
      simp at h1
  | case4 rest hsv ih =>
    rw [substChars.eq_def, scanTokens.eq_def]
    simp only []
    split
    · split
      · rename_i p2 h2
        simp [hsv] at h2
      · simp [renderSeg, ih]
    · rename_i h1
      simp at h1
  | case5 c rest hc ih =>
    rw [substChars.eq_def, scanTokens.eq_def]
    simp [hc, renderSeg, ih]
  | case6 c rest hc ih =>
    rw [substChars.eq_def, scanTokens.eq_def]
    simp [hc, renderSeg, ih]

/-! ### Claims -/

/-- C1: when an enabled descriptor with a recognized transport raises
during connection establishment or tool listing, `create_mcp_clients`
catches the exception, logs the failure line — which contains the
descriptor's name and the exception message — treats the source as
contributing zero tools, and keeps processing, so the returned tool list
is exactly the one of the configuration without that descriptor. -/
theorem C1_connection_failure_isolated
    (gw : Option GatewayCfg) (pre post : List Server) (s : Server) (n m : String)
    (hen : truthyOpt s.enabled = true)
    (htr : s.transport = some "stdio" ∨ s.transport = some "streamable_http")
    (hname : s.name = some n)
    (hout : s.outcome = ConnOutcome.constructFail m ∨ s.outcome = ConnOutcome.listFail m) :
    (create_mcp_clients ⟨gw, some (pre ++ s :: post)⟩).tools
        = (create_mcp_clients ⟨gw, some (pre ++ post)⟩).tools
    ∧ connFailMsg n m ∈ (create_mcp_clients ⟨gw, some (pre ++ s :: post)⟩).log
    ∧ (∃ a b, connFailMsg n m = a ++ n ++ b)
    ∧ (∃ a b, connFailMsg n m = a ++ m ++ b) := by
  have hdelta : (serverDelta s).tools = [] ∧ (serverDelta s).log = [connFailMsg n m] := by
    unfold serverDelta processServer
    rw [if_neg (by simp [hen])]
    rw [if_pos htr]
    rcases hout with h | h <;>
      simp [h, tryConnect, emptyMCPState, hname]
  have h1 : (create_mcp_clients ⟨gw, some (pre ++ s :: post)⟩).tools
      = (create_mcp_clients ⟨gw, some (pre ++ post)⟩).tools := by
    rw [create_split, create_append]
    simp [stateAppend, hdelta.1]
  have h2 : connFailMsg n m ∈ (create_mcp_clients ⟨gw, some (pre ++ s :: post)⟩).log := by
    rw [create_split]
    simp [stateAppend, hdelta.2]
  refine ⟨h1, h2, ?_, ?_⟩
  · refine ⟨"MCP " ++ sq, sq ++ " connection failed: " ++ m, ?_⟩
    apply String.ext
    simp [connFailMsg, String.data_append]
  · refine ⟨"MCP " ++ sq ++ n ++ sq ++ " connection failed: ", "", ?_⟩
    apply String.ext
    simp [connFailMsg, String.data_append]

/-- C1 witness: a failing stdio descriptor followed by a succeeding one:
the tool list equals that of the succeeding descriptor alone, and the
failure line naming the descriptor is logged. -/
theorem C1_witness :
    (create_mcp_clients ⟨none, some [srvFail, srvOk]⟩).tools
        = (create_mcp_clients ⟨none, some [srvOk]⟩).tools
    ∧ connFailMsg "srv1" "boom" ∈ (create_mcp_clients ⟨none, some [srvFail, srvOk]⟩).log := by
  have h := C1_connection_failure_isolated none [] [srvOk] srvFail "srv1" "boom"
    rfl (Or.inl rfl) rfl (Or.inl rfl)
  exact ⟨h.1, h.2.1⟩

/-- C2 counterexample: a scope holding one registered connection whose
release raises: the release is attempted (the close-call list is
exactly the registered connection), yet the scope exit leaves a pending
exception that propagates instead of being suppressed, refuting the
claim's suppression clause for all registration lists. -/
theorem C2_counterexample :
    (scopeExit [⟨"c1", some "boom"⟩]).1 = ["c1"]
    ∧ (scopeExit [⟨"c1", some "boom"⟩]).2 = some "boom"
    ∧ ¬ (∀ regs : List Conn,
          (scopeExit regs).1 = regs.reverse.map Conn.id ∧ (scopeExit regs).2 = none) := by
  refine ⟨rfl, rfl, ?_⟩
  intro h
  have h2 := (h [⟨"c1", some "boom"⟩]).2
  simp [scopeExit, runExitCallbacks] at h2

/-- C2 (amended): on scope exit every registered connection's release is
attempted exactly once, in reverse registration order, and a failure
while releasing one connection does not prevent the remaining releases
from being attempted; however, an exception raised during a release is
not suppressed: the pending exception after the sweep is that of the
earliest-registered failing connection (later failures having been
chained into it) and propagates to the caller; no exception propagates
exactly when every release succeeds. -/
theorem C2_scope_release_amended (regs : List Conn) :
    (scopeExit regs).1 = regs.reverse.map Conn.id
    ∧ (scopeExit regs).2 = (regs.filterMap Conn.releaseError).head?
    ∧ ((∀ c ∈ regs, c.releaseError = none) → (scopeExit regs).2 = none) := by
  refine ⟨scopeExit_fst regs, scopeExit_snd regs, ?_⟩
  intro h
  rw [scopeExit_snd]
  have hnil : regs.filterMap Conn.releaseError = [] := by
    rw [List.filterMap_eq_nil_iff]
    exact h
  simp [hnil]

/-- C2 witness: two connections whose releases succeed are closed in
reverse registration order and nothing propagates. -/
theorem C2_witness :
    (scopeExit [⟨"a", none⟩, ⟨"b", none⟩]).1 = ["b", "a"]
    ∧ (scopeExit [⟨"a", none⟩, ⟨"b", none⟩]).2 = none := by
  have h := C2_scope_release_amended [⟨"a", none⟩, ⟨"b", none⟩]
  exact ⟨h.1.trans (by decide), h.2.2 (by decide)⟩

/-- C3: the tool list assembled for one invocation is exactly the local
tools, then the gateway source's tools when the gateway is connected,
then the tools of each successfully connected enabled descriptor in
descriptor order, each source's tools in the order that source returned
them. -/
theorem C3_tool_order (localTools : List Tool) (env : InvokeEnv) :
    (invokeAssemble localTools env).tools
      = localTools ++ gatewayToolsSpec env
          ++ (env.config.mcp_servers.getD []).flatMap serverToolsSpec := by
  obtain ⟨cfg, auth, gwo⟩ := env
  by_cases hg : gwEnabled cfg = true ∧ auth ≠ ""
  · cases gwo <;>
      simp [invokeAssemble, gatewayToolsSpec, hg, create_tools, List.append_assoc]
  · simp [invokeAssemble, gatewayToolsSpec, hg, create_tools, List.append_assoc]

/-- C4: `_resolve_env` returns a mapping with the same keys; each string
value is rewritten by replacing every `${NAME}` token (the leftmost
non-overlapping matches of the pattern) with the process environment
value of `NAME` when `NAME` is set and leaving the literal token text
when it is unset; each non-string value is coerced to its string
representation.  No input makes it raise: the function is total. -/
theorem C4_resolve_env_spec (osenv : String → Option String) (m : List (String × Val)) :
    ((resolve_env osenv m).map Prod.fst = m.map Prod.fst)
    ∧ (∀ k v, (k, v) ∈ m → (k, resolveVal osenv v) ∈ resolve_env osenv m)
    ∧ (∀ s, resolveVal osenv (Val.str s)
        = String.mk ((scanTokens s.data).flatMap (renderSeg osenv)))
    ∧ (∀ r, resolveVal osenv (Val.other r) = r)
    ∧ (∀ nm v, osenv (String.mk nm) = some v → renderSeg osenv (Seg.tok nm) = v.data)
    ∧ (∀ nm, osenv (String.mk nm) = none → renderSeg osenv (Seg.tok nm) = tokenText nm) := by
  refine ⟨?_, ?_, ?_, ?_, ?_, ?_⟩
  · simp [resolve_env]
  · intro k v hv
    exact List.mem_map_of_mem _ hv
  · intro s
    simp [resolveVal, substChars_render]
  · intro r
    rfl
  · intro nm v h
    simp [renderSeg, lookupEnv, h]
  · intro nm h
    simp [renderSeg, lookupEnv, h]

/-- C4 witness: with only `MY_VAR` set (to `secret`), the mapping value
`"${MY_VAR}"` resolves to `"secret"`, while `"${NO_VAR}"` stays the
literal token text. -/
theorem C4_witness :
    renderSeg osenvSample (Seg.tok ("MY_VAR").data) = ("secret").data
    ∧ renderSeg osenvSample (Seg.tok ("NO_VAR").data) = tokenText ("NO_VAR").data
    ∧ resolve_env osenvSample [("TOKEN", Val.str "$\x7bMY_VAR\x7d")] = [("TOKEN", "secret")]
    ∧ resolve_env osenvSample [("TOKEN", Val.str "$\x7bNO_VAR\x7d")]
        = [("TOKEN", "$\x7bNO_VAR\x7d")]
    ∧ resolve_env osenvSample [("N", Val.other "3")] = [("N", "3")] := by
  have h := C4_resolve_env_spec osenvSample []
  refine ⟨h.2.2.2.2.1 _ _ (by decide), h.2.2.2.2.2 _ (by decide), ?_, ?_, ?_⟩
  · simp [resolve_env, resolveVal, substChars, splitVar, splitVarGo, lookupEnv,
      tokenText, osenvSample]
  · simp [resolve_env, resolveVal, substChars, splitVar, splitVarGo, lookupEnv,
      tokenText, osenvSample]
  · rfl

/-- C5: for every path missing from the modelled filesystem,
`load_mcp_config` returns (never raises) the config with
`gateway.enabled = false` and an empty `mcp_servers` list. -/
theorem C5_missing_config (fs : String → FsEntry) (path : String)
    (h : fs path = FsEntry.absent) :
    load_mcp_config fs path = Except.ok defaultMCPConfig
    ∧ defaultMCPConfig.gateway = some ⟨some false⟩
    ∧ defaultMCPConfig.mcp_servers = some []
    ∧ gwEnabled defaultMCPConfig = false := by
  refine ⟨?_, rfl, rfl, rfl⟩
  simp [load_mcp_config, h]

/-- C5 witness: loading from an empty filesystem yields the default
config. -/
theorem C5_witness :
    load_mcp_config (fun _ => FsEntry.absent) "/app/configs/mcp_servers.yaml"
      = Except.ok defaultMCPConfig :=
  (C5_missing_config (fun _ => FsEntry.absent) "/app/configs/mcp_servers.yaml" rfl).1

/-- C6: when the path exists but cannot be read or parsed (a directory,
or malformed YAML), `load_mcp_config` raises, the error propagates
through the setup code of `create_app` (which installs no handler), and
in particular no empty configuration is silently returned. -/
theorem C6_unreadable_config (fs : String → FsEntry) (path : String) (e : String)
    (h : fs path = FsEntry.unreadable e ∨ fs path = FsEntry.yamlFile (Except.error e)) :
    load_mcp_config fs path = Except.error e
    ∧ create_app_config fs path = Except.error e
    ∧ ∀ c, load_mcp_config fs path ≠ Except.ok c := by
  have hl : load_mcp_config fs path = Except.error e := by
    rcases h with h | h <;> simp [load_mcp_config, h]
  refine ⟨hl, hl, ?_⟩
  intro c hc
  rw [hl] at hc
  cases hc

/-- C6 witness: a config path naming a directory makes the load raise
with the open error, both directly and through the setup step. -/
theorem C6_witness :
    load_mcp_config (fun _ => FsEntry.unreadable "IsADirectoryError") "/app/configs"
      = Except.error "IsADirectoryError"
    ∧ create_app_config (fun _ => FsEntry.unreadable "IsADirectoryError") "/app/configs"
      = Except.error "IsADirectoryError" := by
  have h := C6_unreadable_config (fun _ => FsEntry.unreadable "IsADirectoryError")
    "/app/configs" "IsADirectoryError" (Or.inl rfl)
  exact ⟨h.1, h.2.1⟩

/-- C7: the gateway connection is attempted exactly when
`config.gateway.enabled` is truthy and the inbound request carries a
nonempty Authorization header; when either condition is missing the
gateway is silently skipped — no error, no gateway log line, no gateway
registration — and the rest of the tool assembly proceeds unchanged. -/
theorem C7_gateway_gating (localTools : List Tool) (env : InvokeEnv) :
    ((invokeAssemble localTools env).gatewayAttempted = true
        ↔ (gwEnabled env.config = true ∧ env.authHeader ≠ ""))
    ∧ (¬ (gwEnabled env.config = true ∧ env.authHeader ≠ "") →
        (invokeAssemble localTools env).tools
            = localTools ++ (create_mcp_clients env.config).tools
        ∧ (invokeAssemble localTools env).log = (create_mcp_clients env.config).log
        ∧ (invokeAssemble localTools env).registered
            = (create_mcp_clients env.config).registered) := by
  obtain ⟨cfg, auth, gwo⟩ := env
  by_cases hg : gwEnabled cfg = true ∧ auth ≠ ""
  · refine ⟨?_, fun hc => absurd hg hc⟩
    cases gwo <;> simp [invokeAssemble, hg]
  · refine ⟨?_, ?_⟩
    · simp [invokeAssemble, hg]
    · intro _
      simp [invokeAssemble, hg]

/-- C7 witness: with `gateway.enabled = false` in the default config, a
request carrying an Authorization header still skips the gateway and
the assembly is local tools plus the configured sources' tools. -/
theorem C7_witness :
    (invokeAssemble ["local1"] ⟨defaultMCPConfig, "Bearer tok", GatewayOutcome.ok ["gw1"]⟩).tools
      = ["local1"] ++ (create_mcp_clients defaultMCPConfig).tools
    ∧ (invokeAssemble ["local1"] ⟨defaultMCPConfig, "Bearer tok", GatewayOutcome.ok ["gw1"]⟩).gatewayAttempted
      = false := by
  have h := C7_gateway_gating ["local1"] ⟨defaultMCPConfig, "Bearer tok", GatewayOutcome.ok ["gw1"]⟩
  refine ⟨(h.2 (by decide)).1, ?_⟩
  have h1 := h.1
  by_cases hb : (invokeAssemble ["local1"]
      ⟨defaultMCPConfig, "Bearer tok", GatewayOutcome.ok ["gw1"]⟩).gatewayAttempted = true
  · exact absurd (h1.mp hb) (by decide)
  · simpa using hb

/-- C8: an enabled descriptor whose transport is neither `stdio` nor
`streamable_http` logs a warning line containing the descriptor's name
and the unrecognized transport string, contributes no tools, registers
nothing, triggers no connection attempt, does not raise, and leaves the
processing of the other descriptors unchanged. -/
theorem C8_unsupported_transport
    (gw : Option GatewayCfg) (pre post : List Server) (s : Server) (n t : String)
    (hen : truthyOpt s.enabled = true)
    (hname : s.name = some n)
    (htr : s.transport = some t)
    (hbad : ¬ (s.transport = some "stdio" ∨ s.transport = some "streamable_http")) :
    (create_mcp_clients ⟨gw, some (pre ++ s :: post)⟩).tools
        = (create_mcp_clients ⟨gw, some (pre ++ post)⟩).tools
    ∧ (create_mcp_clients ⟨gw, some (pre ++ s :: post)⟩).registered
        = (create_mcp_clients ⟨gw, some (pre ++ post)⟩).registered
    ∧ (create_mcp_clients ⟨gw, some (pre ++ s :: post)⟩).attempted
        = (create_mcp_clients ⟨gw, some (pre ++ post)⟩).attempted
    ∧ unsupportedMsg n t ∈ (create_mcp_clients ⟨gw, some (pre ++ s :: post)⟩).log
    ∧ (∃ a b, unsupportedMsg n t = a ++ n ++ b)
    ∧ (∃ a b, unsupportedMsg n t = a ++ t ++ b) := by
  have hdelta : serverDelta s = ⟨[], [unsupportedMsg n t], [], []⟩ := by
    unfold serverDelta processServer
    rw [if_neg (by simp [hen])]
    rw [if_neg hbad]
    simp [hname, htr, pyShowOptStr, emptyMCPState]
  have hs := create_split gw pre post s
  have ha := create_append gw pre post
  refine ⟨?_, ?_, ?_, ?_, ?_, ?_⟩
  · rw [hs, ha, hdelta]
    simp [stateAppend]
  · rw [hs, ha, hdelta]
    simp [stateAppend]
  · rw [hs, ha, hdelta]
    simp [stateAppend]
  · rw [hs, hdelta]
    simp [stateAppend]
  · refine ⟨"MCP " ++ sq, sq ++ ": unsupported transport " ++ sq ++ t ++ sq, ?_⟩
    apply String.ext
    simp [unsupportedMsg, String.data_append]
  · refine ⟨"MCP " ++ sq ++ n ++ sq ++ ": unsupported transport " ++ sq, sq, ?_⟩
    apply String.ext
    simp [unsupportedMsg, String.data_append]

/-- C8 witness: a descriptor with transport `websocket` between two
well-formed runs leaves tools unchanged and logs the warning. -/
theorem C8_witness :
    (create_mcp_clients ⟨none, some [srvBadTransport, srvOk]⟩).tools
        = (create_mcp_clients ⟨none, some [srvOk]⟩).tools
    ∧ unsupportedMsg "srv5" "websocket"
        ∈ (create_mcp_clients ⟨none, some [srvBadTransport, srvOk]⟩).log := by
  have h := C8_unsupported_transport none [] [srvOk] srvBadTransport "srv5" "websocket"
    rfl rfl rfl (by decide)
  exact ⟨h.1, h.2.2.2.1⟩

/-- C9: a descriptor with `enabled = false` causes no connection
attempt, no registration, and no tools: the whole run equals the run on
the configuration without it, and its own contribution is the empty
state. -/
theorem C9_disabled_skipped
    (gw : Option GatewayCfg) (pre post : List Server) (s : Server)
    (h : s.enabled = some false) :
    create_mcp_clients ⟨gw, some (pre ++ s :: post)⟩
        = create_mcp_clients ⟨gw, some (pre ++ post)⟩
    ∧ serverDelta s = emptyMCPState := by
  have hdelta : serverDelta s = emptyMCPState := by
    simp [serverDelta, processServer, truthyOpt, h]
  refine ⟨?_, hdelta⟩
  rw [create_split, create_append, hdelta, stateAppend_empty_left]

/-- C9 witness: a disabled descriptor between enabled ones leaves the
whole observable state unchanged. -/
theorem C9_witness :
    create_mcp_clients ⟨none, some [srvOk, srvOff]⟩ = create_mcp_clients ⟨none, some [srvOk]⟩
    ∧ serverDelta srvOff = emptyMCPState := by
  have h := C9_disabled_skipped none [srvOk] [] srvOff rfl
  exact h

/-- C10: a descriptor that omits the `enabled` key entirely is treated
exactly like one with `enabled = false`: skipped with no connection
attempt and zero contribution. -/
theorem C10_missing_enabled_skipped
    (gw : Option GatewayCfg) (pre post : List Server) (s : Server)
    (h : s.enabled = none) :
    create_mcp_clients ⟨gw, some (pre ++ s :: post)⟩
        = create_mcp_clients ⟨gw, some (pre ++ post)⟩
    ∧ create_mcp_clients ⟨gw, some (pre ++ s :: post)⟩
        = create_mcp_clients ⟨gw, some (pre ++ { s with enabled := some false } :: post)⟩
    ∧ serverDelta s = emptyMCPState := by
  have hdelta : serverDelta s = emptyMCPState := by
    simp [serverDelta, processServer, truthyOpt, h]
  have hdelta2 : serverDelta { s with enabled := some false } = emptyMCPState := by
    simp [serverDelta, processServer, truthyOpt]
  refine ⟨?_, ?_, hdelta⟩
  · rw [create_split, create_append, hdelta, stateAppend_empty_left]
  · rw [create_split, create_split, hdelta, hdelta2]

/-- C10 witness: a descriptor with no `enabled` key is skipped exactly
like an `enabled: false` one. -/
theorem C10_witness :
    create_mcp_clients ⟨none, some [srvNoEnabled, srvOk]⟩
        = create_mcp_clients ⟨none, some [srvOk]⟩
    ∧ serverDelta srvNoEnabled = emptyMCPState := by
  have h := C10_missing_enabled_skipped none [] [srvOk] srvNoEnabled rfl
  exact ⟨h.1, h.2.2⟩

end AIOps
